import Mathlib

/-!
Verification development for the jRPC dispatch layer (`web/jrpc/jrpc.go`
of valentin-kaiser/go-core).

The Go source is shallowly embedded: reflected Go types become the
inductive `GoType`, a reflected method signature becomes `MethodSig`
(its parameter and return type lists), and the schema-derived method
metadata becomes `MethodDesc`.  Pure Go functions
(`validateMethodSignature`, `typesMatch`, the branch structure of
`Handle`, `call`, the pump loops and the three streaming handlers) are
translated into Lean functions; the external collaborators (transport
reads/writes, the protojson codec, the user implementation) appear as
explicit oracle inputs describing one concrete execution.
-/

namespace JRPC

/-- Go channel direction (`reflect.ChanDir`): `both` is `chan T`,
`recv` is `<-chan T`, `send` is `chan<- T`. -/
inductive Dir where
  | both
  | recv
  | send
deriving DecidableEq, Repr

/-- Shallow model of a Go `reflect.Type` as the jrpc package inspects it:
the `context.Context` interface, the `error` interface, pointers,
channels (with direction), named protobuf message struct types (carrying
their package-qualified `String()` and bare `Name()`), and any other
named type. -/
inductive GoType where
  | context
  | goError
  | ptr (t : GoType)
  | ch (d : Dir) (t : GoType)
  | message (qual : String) (bare : String)
  | base (s : String)
deriving DecidableEq, Repr

namespace GoType

/-- `reflect.Type.String()`. -/
def typeString : GoType → String
  | .context => "context.Context"
  | .goError => "error"
  | .ptr t => "*" ++ typeString t
  | .ch .both t => "chan " ++ typeString t
  | .ch .recv t => "<-chan " ++ typeString t
  | .ch .send t => "chan<- " ++ typeString t
  | .message q _ => q
  | .base s => s

/-- `reflect.Type.Name()`: empty for unnamed composite types. -/
def typeName : GoType → String
  | .context => "Context"
  | .goError => "error"
  | .ptr _ => ""
  | .ch _ _ => ""
  | .message _ b => b
  | .base s => s

/-- `t.Kind() == reflect.Chan`. -/
def isChan : GoType → Bool
  | .ch _ _ => true
  | _ => false

/-- `t.Kind() == reflect.Ptr`. -/
def isPtr : GoType → Bool
  | .ptr _ => true
  | _ => false

/-- `t.Elem()` for pointer and channel types (the only kinds the source
calls it on, always behind a Kind guard). -/
def elem : GoType → GoType
  | .ptr t => t
  | .ch _ t => t
  | t => t

/-- `t.ChanDir() & reflect.SendDir != 0` for channel types. -/
def chanDirHasSend : GoType → Bool
  | .ch .both _ => true
  | .ch .send _ => true
  | _ => false

/-- `t.Implements(reflect.TypeOf((*context.Context)(nil)).Elem())`:
in this model exactly the `context.Context` interface type itself. -/
def implementsContext : GoType → Bool
  | .context => true
  | _ => false

/-- `t.Implements(reflect.TypeOf((*error)(nil)).Elem())`:
in this model exactly the `error` interface type itself. -/
def implementsError : GoType → Bool
  | .goError => true
  | _ => false

end GoType

/-- A reflected Go method signature: `ins` are the parameter types
(`mt.In i`), `outs` the return types (`mt.Out i`). -/
structure MethodSig where
  ins : List GoType
  outs : List GoType
deriving DecidableEq, Repr

namespace MethodSig

/-- `mt.NumIn()`. -/
def numIn (mt : MethodSig) : Nat := mt.ins.length

/-- `mt.NumOut()`. -/
def numOut (mt : MethodSig) : Nat := mt.outs.length

/-- `mt.In i` (the source only indexes after checking `NumIn`). -/
def inAt (mt : MethodSig) (i : Nat) : GoType := mt.ins.getD i (.base "")

/-- `mt.Out i` (the source only indexes after checking `NumOut`). -/
def outAt (mt : MethodSig) (i : Nat) : GoType := mt.outs.getD i (.base "")

end MethodSig

/-- Schema-derived method metadata as `validateMethodSignature` consumes
it.  `inputGoType`/`outputGoType` are the struct types produced by
`getProtoMessageType md.Input()` / `getProtoMessageType md.Output()`:
that helper never fails (on a registry miss it falls back to the
`dynamicpb` message type and returns a nil error), so the two
`failed to resolve ... message type` branches of the source are dead and
the resolved types are plain data here. -/
structure MethodDesc where
  inputGoType : GoType
  outputGoType : GoType
  streamingServer : Bool
  streamingClient : Bool
deriving DecidableEq, Repr

/-- `StreamingType` constants of the source. -/
inductive StreamingType where
  | unary
  | bidirectional
  | serverStream
  | clientStream
  | invalid
deriving DecidableEq, Repr

/-- `websocket.CloseNormalClosure`. -/
def closeNormalClosure : Nat := 1000

/-- `websocket.CloseInternalServerErr`. -/
def closeInternalServerErr : Nat := 1011

/-- `Service.typesMatch`: direct type identity, then `String()`
equality, then bare `Name()` equality. -/
def typesMatch (actual expected : GoType) : Bool :=
  if actual = expected then true
  else if actual.typeString = expected.typeString then true
  else actual.typeName = expected.typeName

/-- `Service.validateMethodSignature`, translated branch for branch.
The Go function returns `(StreamingType, error)`; every error return
pairs with `StreamingTypeInvalid` and every nil-error return with a
non-`Invalid` type, so it is rendered as `Except String StreamingType`
(`.error reason` standing for `(StreamingTypeInvalid, errors.New reason)`). -/
def validateMethodSignature (mt : MethodSig) (md : MethodDesc) :
    Except String StreamingType :=
  if mt.numIn < 1 ∨ ¬ (mt.inAt 0).implementsContext then
    .error "first parameter must be context.Context"
  else if mt.numOut < 1 ∨ ¬ (mt.outAt (mt.numOut - 1)).implementsError then
    .error "last return value must be error"
  else
    let inputType := md.inputGoType
    let outputType := md.outputGoType
    match md.streamingServer, md.streamingClient with
    | true, true =>
      if mt.numIn ≠ 3 ∨ mt.numOut ≠ 1 then
        .error "bidirectional streaming method must have signature: func(context.Context, chan *InputMsg, chan OutputMsg) error"
      else if ¬ (mt.inAt 1).isChan ∨ ¬ (mt.inAt 1).elem.isPtr then
        .error "second parameter must be chan *InputMsg"
      else
        let actualInputType := (mt.inAt 1).elem.elem
        if ¬ typesMatch actualInputType inputType then
          .error ("input channel type mismatch: expected chan *" ++
            inputType.typeString ++ ", got " ++ (mt.inAt 1).typeString)
        else if ¬ (mt.inAt 2).isChan then
          .error "third parameter must be chan OutputMsg"
        else
          let a0 := (mt.inAt 2).elem
          let actualOutputType := if a0.isPtr then a0.elem else a0
          if ¬ typesMatch actualOutputType outputType then
            .error ("output channel type mismatch: expected chan " ++
              outputType.typeString ++ ", got " ++ (mt.inAt 2).typeString)
          else
            .ok .bidirectional
    | true, false =>
      if mt.numIn ≠ 3 ∨ mt.numOut ≠ 1 then
        .error "server streaming method must have signature: func(context.Context, *InputMsg, chan OutputMsg) error"
      else if ¬ (mt.inAt 1).isPtr then
        .error "second parameter must be *InputMsg"
      else if ¬ typesMatch (mt.inAt 1).elem inputType then
        .error ("input type mismatch: expected *" ++ inputType.typeString ++
          ", got " ++ (mt.inAt 1).typeString)
      else if ¬ (mt.inAt 2).isChan ∨ ¬ (mt.inAt 2).chanDirHasSend then
        .error "third parameter must be send chan OutputMsg"
      else
        let a0 := (mt.inAt 2).elem
        let actualOutputType := if a0.isPtr then a0.elem else a0
        if ¬ typesMatch actualOutputType outputType then
          .error ("output channel type mismatch: expected chan " ++
            outputType.typeString ++ ", got " ++ (mt.inAt 2).typeString)
        else
          .ok .serverStream
    | false, true =>
      if mt.numIn ≠ 2 ∨ mt.numOut ≠ 2 then
        .error "client streaming method must have signature: func(context.Context, chan *InputMsg) (OutputMsg, error)"
      else if ¬ (mt.inAt 1).isChan ∨ ¬ (mt.inAt 1).elem.isPtr then
        .error "second parameter must be chan *InputMsg"
      else if ¬ typesMatch (mt.inAt 1).elem.elem inputType then
        .error ("input channel type mismatch: expected chan *" ++
          inputType.typeString ++ ", got " ++ (mt.inAt 1).typeString)
      else
        let o0 := mt.outAt 0
        let actualOutputType := if o0.isPtr then o0.elem else o0
        if ¬ typesMatch actualOutputType outputType then
          .error ("output type mismatch: expected " ++ outputType.typeString ++
            ", got " ++ (mt.outAt 0).typeString)
        else
          .ok .clientStream
    | false, false =>
      if mt.numIn ≠ 2 ∨ mt.numOut ≠ 2 then
        .error "unary method must have signature: func(context.Context, *InputMsg) (OutputMsg, error)"
      else if ¬ (mt.inAt 1).isPtr then
        .error "second parameter must be *InputMsg"
      else if ¬ typesMatch (mt.inAt 1).elem inputType then
        .error ("input type mismatch: expected *" ++ inputType.typeString ++
          ", got " ++ (mt.inAt 1).typeString)
      else
        let o0 := mt.outAt 0
        let actualOutputType := if o0.isPtr then o0.elem else o0
        if ¬ typesMatch actualOutputType outputType then
          .error ("output type mismatch: expected " ++ outputType.typeString ++
            ", got " ++ (mt.outAt 0).typeString)
        else
          .ok .unary

/-- Outcome of `HandleWebsocket` up to (and including) the dispatch
decision: either the session is closed with a close code and reason
before any handler runs, or control is handed to one of the three
streaming handlers (the only places from which the user method can be
invoked). -/
inductive WSDispatch where
  | closed (code : Nat) (reason : String)
  | bidirectionalHandler
  | serverStreamHandler
  | clientStreamHandler
deriving DecidableEq, Repr

/-- `Service.HandleWebsocket`, translated up to the dispatch decision.
`findRes` is the result of `s.find service method`; `methodValid` is
`reflect.ValueOf(s.Server).MethodByName(method).IsValid()`; `mt` the
reflected signature of the found method. -/
def handleWebsocket (findRes : Except String MethodDesc)
    (methodValid : Bool) (mt : MethodSig) : WSDispatch :=
  match findRes with
  | .error _ => .closed closeInternalServerErr "service or method not found"
  | .ok md =>
    if ¬ methodValid then
      .closed closeInternalServerErr "method not found"
    else
      match validateMethodSignature mt md with
      | .error e =>
        .closed closeInternalServerErr ("invalid method signature: " ++ e)
      | .ok st =>
        match st with
        | .bidirectional => .bidirectionalHandler
        | .serverStream => .serverStreamHandler
        | .clientStream => .clientStreamHandler
        | .unary =>
          .closed closeInternalServerErr "unary methods are not supported over WebSocket"
        | .invalid =>
          .closed closeInternalServerErr "unsupported streaming type"

/-- Shallow model of a Go `error` value as the jrpc package inspects it:
either a `*websocket.CloseError` (carrying its close code and text) or
any other error, represented by its `Error()` text.  `apperror.Error`
values stringify to their plain message in non-debug mode, so they are
covered by `plain`. -/
inductive GoError where
  | closeError (code : Nat) (text : String)
  | plain (msg : String)
deriving DecidableEq, Repr

/-- `err.Error()`.  `*websocket.CloseError` formats as
`websocket: close <code>: <text>`. -/
def GoError.text : GoError → String
  | .closeError c t => "websocket: close " ++ toString c ++ ": " ++ t
  | .plain m => m

/-- `websocket.IsCloseError(err, code)`: true when the error is a
`*websocket.CloseError` with the given code. -/
def isCloseError (e : GoError) (code : Nat) : Bool :=
  match e with
  | .closeError c _ => c = code
  | .plain _ => false

/-!  ### The schema-aware message codec

The JSON codec (`protojson`) is an external collaborator of this
package; the spec treats it as an assumed encoding format.  The
`Message`/`encode`/`decodeDoc` definitions below are therefore
*modelled from the spec*: a schema declares named, typed fields; a
message instance assigns values to some of them; the encoder used by
the dispatcher (`protojson.MarshalOptions{EmitUnpopulated: true,
UseProtoNames: true}`) emits every schema-declared field, using the
type's zero value for unset fields; the decoder rejects undeclared
field names and stores the assignments it reads.  -/

/-- Scalar field types of the modelled schema. -/
inductive FieldType where
  | intF
  | strF
  | boolF
deriving DecidableEq, Repr

/-- Scalar field values of the modelled JSON document. -/
inductive FieldValue where
  | intV (n : Int)
  | strV (s : String)
  | boolV (b : Bool)
deriving DecidableEq, Repr

/-- The zero (proto3 default) value of a field type. -/
def zeroOf : FieldType → FieldValue
  | .intF => .intV 0
  | .strF => .strV ""
  | .boolF => .boolV false

/-- A message schema: the declared fields, in declaration order. -/
structure Schema where
  fields : List (String × FieldType)
deriving DecidableEq, Repr

/-- A message instance: its schema and the explicitly set fields. -/
structure Message where
  schema : Schema
  assigns : List (String × FieldValue)
deriving DecidableEq, Repr

/-- An encoded JSON document, at the granularity the spec describes it:
a sequence of (field name, value) pairs. -/
def EncodedDoc := List (String × FieldValue)
deriving instance DecidableEq, Repr for EncodedDoc

/-- Reading a field of a message: the explicitly set value, or the
declared type's zero value (proto3 semantics: unset and zero are
indistinguishable). -/
def getField (m : Message) (n : String) (t : FieldType) : FieldValue :=
  match m.assigns.lookup n with
  | some v => v
  | none => zeroOf t

/-- Modelled from the spec: the Message Factory's fresh, empty instance
for a schema (`Service.message` / `mt.New()`). -/
def newMessage (s : Schema) : Message := ⟨s, []⟩

/-- Modelled from the spec: schema-aware encoding with unset fields
emitted (`protojson.MarshalOptions{EmitUnpopulated: true}`): every
declared field appears, carrying its effective value. -/
def encode (m : Message) : EncodedDoc :=
  m.schema.fields.map (fun p => (p.1, getField m p.1 p.2))

/-- Modelled from the spec: schema-aware decoding of a document into a
fresh Message-Factory instance of the schema (`protojson.Unmarshal`):
fails on a field name the schema does not declare, otherwise stores the
read assignments. -/
def decodeDoc (s : Schema) (doc : EncodedDoc) : Except String Message :=
  if doc.all (fun p => (s.fields.map Prod.fst).contains p.1) then
    .ok ⟨s, doc⟩
  else
    .error "unknown field"

/-- A Go value in response position, as `Service.marshal` and
`Service.writeWSMessage` inspect it:
* `protoMsg m` — a `*T` generated-message pointer (implements
  `proto.Message` directly);
* `structMsg m` — a struct value `T` whose pointer type implements
  `proto.Message`;
* `plainStruct` — a struct whose pointer type does not implement
  `proto.Message`;
* `other` — any non-pointer, non-struct value (e.g. an `int`). -/
inductive RespValue where
  | protoMsg (m : Message)
  | structMsg (m : Message)
  | plainStruct (s : String)
  | other (s : String)
deriving DecidableEq, Repr

/-- `reflect.TypeOf(v).Kind()` is `Ptr` or `Struct`
(the check `writeWSMessage` performs). -/
def RespValue.kindPtrOrStruct : RespValue → Bool
  | .protoMsg _ => true
  | .structMsg _ => true
  | .plainStruct _ => true
  | .other _ => false

/-- `Service.marshal`, translated branch for branch over the value
model.  The `rv.CanAddr()` branch of the source is unreachable —
`reflect.ValueOf` of an interface argument never yields an addressable
value — so it has no counterpart here.  A `nil` response (`none`) fails
every branch and reaches the final error, as in the source. -/
def marshalValue (v : Option RespValue) : Except String EncodedDoc :=
  match v with
  | some (.protoMsg m) => .ok (encode m)
  | some (.structMsg m) => .ok (encode m)
  | some (.plainStruct _) => .error "response is not a proto message"
  | some (.other _) => .error "response is not a proto message"
  | none => .error "response is not a proto message"

/-!  ### The unary dispatcher (`Service.Handle` and `Service.call`)  -/

/-- Oracle describing one execution of `Service.call`: the reflective
facts about the located implementation and the results of the external
steps (the protojson conversion round-trip and the implementation
itself). -/
structure CallEnv where
  /-- `reflect.ValueOf(s.Server).MethodByName(method).IsValid()`. -/
  methodValid : Bool
  /-- `m.Type()`, the reflected signature. -/
  sig : MethodSig
  /-- `reflect.ValueOf(req).IsValid()` (false only for a nil request). -/
  reqValid : Bool
  /-- `reqVal.Type().AssignableTo(mt.In(1))`. -/
  reqAssignable : Bool
  /-- `protojson.Marshal(req)` on the conversion path. -/
  convMarshal : Except String EncodedDoc
  /-- `reqPtr.Interface().(proto.Message)` succeeds. -/
  convIsProtoMessage : Bool
  /-- `protojson.Unmarshal(b, pm)` on the conversion path. -/
  convUnmarshal : Except String Unit
  /-- `outs[0].Interface()` returned by the implementation
  (`none` = nil interface). -/
  implResp : Option RespValue
  /-- `outs[1].Interface()` returned by the implementation. -/
  implErr : Option GoError

/-- Result of `Service.call`: an error produced by the dispatch-time
checks (the implementation is never invoked), or the implementation's
own (response, error) pair after `m.Call` ran. -/
inductive CallOutcome where
  | checkError (msg : String)
  | invoked (resp : Option RespValue) (err : Option GoError)
deriving DecidableEq, Repr

/-- `Service.call`, translated check for check in source order.  All
checks precede `m.Call`; only the final branch invokes the
implementation. -/
def call (env : CallEnv) : CallOutcome :=
  if ¬ env.methodValid then .checkError "method not found"
  else if env.sig.numIn ≠ 2 ∨ env.sig.numOut ≠ 2 then
    .checkError "invalid method signature"
  else if ¬ (env.sig.inAt 0).implementsContext then
    .checkError "first argument must be context.Context"
  else if ¬ (env.sig.outAt 1).implementsError then
    .checkError "second return value must be error"
  else if ¬ (env.sig.inAt 1).isPtr then
    .checkError "request must be a pointer"
  else if ¬ env.reqValid then .checkError "nil request"
  else if ¬ env.reqAssignable then
    match env.convMarshal with
    | .error e => .checkError e
    | .ok _ =>
      if ¬ env.convIsProtoMessage then
        .checkError "expected proto.Message for request"
      else
        match env.convUnmarshal with
        | .error e => .checkError e
        | .ok _ => .invoked env.implResp env.implErr
  else .invoked env.implResp env.implErr

/-- State of the input message Handle passes to `call`: the fresh
Message-Factory instance, or that instance after the request body was
decoded into it. -/
inductive MsgState where
  | empty
  | decodedFrom (body : List Nat)
deriving DecidableEq, Repr

/-- Transport side effects of one `Handle` execution.  `http.Error` and
the success-path `WriteHeader`+`Write` each count as the one write to
the outbound transport; `readBody` is the single `io.ReadAll` of the
request body. -/
inductive HTTPEvent where
  | readBody
  | writeError (status : Nat) (msg : String)
  | writeResponse (status : Nat) (body : EncodedDoc)
deriving DecidableEq, Repr

/-- The HTTP response `Handle` produces: a plain-text error with a
status code (`http.Error`), or the 200 response carrying the encoded
output message with the `application/json` content type. -/
inductive HTTPResponse where
  | errorResp (status : Nat) (msg : String)
  | okResp (body : EncodedDoc)
deriving DecidableEq, Repr

/-- The status code of a response (`okResp` is written with
`http.StatusOK`). -/
def HTTPResponse.status : HTTPResponse → Nat
  | .errorResp s _ => s
  | .okResp _ => 200

/-- The `Content-Type` header `Handle` sets (only the success path sets
one). -/
def HTTPResponse.contentType : HTTPResponse → Option String
  | .errorResp _ _ => none
  | .okResp _ => some "application/json"

/-- Oracle describing one execution of `Service.Handle`: the results of
the external lookups, the request's announced and actual body, the
decode outcome, and the `call` oracle. -/
structure HandleEnv where
  /-- `s.find service method`. -/
  findRes : Except String Unit
  /-- `s.message md` (in the source this never actually fails — on a
  registry miss it falls back to a `dynamicpb` message — but `Handle`'s
  branch on it is kept). -/
  messageRes : Except String Unit
  /-- `r.ContentLength`. -/
  contentLength : Int
  /-- The bytes `io.ReadAll(r.Body)` returned (its error is discarded
  by the source). -/
  bodyBytes : List Nat
  /-- `protojson.Unmarshal(body, msg)`. -/
  unmarshalRes : Except String Unit
  /-- The oracle for `s.call`. -/
  callEnv : CallEnv

/-- One `Handle` execution: its ordered transport events, the message
state passed to `s.call` (`none` when `call` was never reached), and
the response written. -/
structure HandleRun where
  events : List HTTPEvent
  callInput : Option MsgState
  response : HTTPResponse
deriving DecidableEq, Repr

/-- The tail of `Handle` after the resolve/construct/decode stages:
invoke via `s.call`, map a non-nil error to 500, encode via
`s.marshal` (500 on failure), else write 200 with the JSON body. -/
def handleAfterDecode (env : HandleEnv) (pre : List HTTPEvent)
    (msgState : MsgState) : HandleRun :=
  match call env.callEnv with
  | .checkError m =>
    ⟨pre ++ [.writeError 500 m], some msgState, .errorResp 500 m⟩
  | .invoked resp err =>
    match err with
    | some e =>
      ⟨pre ++ [.writeError 500 e.text], some msgState, .errorResp 500 e.text⟩
    | none =>
      match marshalValue resp with
      | .error m =>
        ⟨pre ++ [.writeError 500 m], some msgState, .errorResp 500 m⟩
      | .ok out =>
        ⟨pre ++ [.writeResponse 200 out], some msgState, .okResp out⟩

/-- `Service.Handle`, translated branch for branch: resolve (404 on
failure), construct the input message (500 on failure), read and decode
the body only when `ContentLength > 0` (400 on a length mismatch or a
decode failure), then dispatch to `handleAfterDecode`. -/
def handle (env : HandleEnv) : HandleRun :=
  match env.findRes with
  | .error e => ⟨[.writeError 404 e], none, .errorResp 404 e⟩
  | .ok _ =>
    match env.messageRes with
    | .error e => ⟨[.writeError 500 e], none, .errorResp 500 e⟩
    | .ok _ =>
      if 0 < env.contentLength then
        if (env.bodyBytes.length : Int) ≠ env.contentLength then
          ⟨[.readBody, .writeError 400 "body length does not match Content-Length"],
            none, .errorResp 400 "body length does not match Content-Length"⟩
        else
          match env.unmarshalRes with
          | .error e =>
            ⟨[.readBody, .writeError 400 e], none, .errorResp 400 e⟩
          | .ok _ =>
            handleAfterDecode env [.readBody] (.decodedFrom env.bodyBytes)
      else
        handleAfterDecode env [] .empty

/-!  ### WebSocket session semantics

The streaming handlers are sequential programs over three concurrent
collaborators (the invoked implementation, the Reader pump, the Writer
pump).  One concrete execution is described by an oracle recording
which of the dispatcher's blocking receives delivered first and with
what value; the handler body is then a deterministic function of that
oracle, producing the ordered list of its observable events. -/

deriving instance DecidableEq for Except

/-- `websocket.TextMessage`. -/
def textMessage : Nat := 1

/-- Observable events of a duplex session, in the order the dispatcher
performs them. -/
inductive Event where
  /-- the `select` received from the implementation's `done` channel -/
  | recvDone
  /-- the `select` received from the Reader pump's `read` channel
  (an error was surfaced, or the channel was closed by a clean exit) -/
  | recvRead
  /-- `<-write` completed: the Writer pump has exited -/
  | waitWriter
  /-- `conn.WriteMessage(websocket.TextMessage, data)` of one response
  frame -/
  | writeFrame (doc : EncodedDoc)
  /-- `conn.WriteControl(websocket.CloseMessage, ...)` carrying a close
  code and reason -/
  | closeFrame (code : Nat) (reason : String)
  /-- `conn.Close()` -/
  | connClose
deriving DecidableEq, Repr

/-- `Service.closeWS`: send the close control frame, then close the
underlying connection (write errors are logged, never propagated). -/
def closeWS (code : Nat) (reason : String) : List Event :=
  [.closeFrame code reason, .connClose]

/-- `Service.readWSMessage` for one frame, over the per-iteration read
oracle.  `ptrIsProto` records whether the freshly constructed `*T`
instance satisfies `proto.Message` (constant across a stream; the
`Kind() != reflect.Ptr` check of the source always passes because the
pointer comes from `reflect.New`).  The payload of a successful
text-frame read stands for the decoded message; an empty payload skips
`protojson.Unmarshal` exactly as in the source. -/
inductive ReadResult where
  /-- `conn.ReadMessage` returned `(messageType, payload, nil)`;
  `dec` is the `protojson.Unmarshal` outcome on this payload -/
  | frame (messageType : Nat) (payload : List Nat) (dec : Except String Unit)
  /-- `conn.ReadMessage` returned an error -/
  | readErr (e : GoError)
deriving DecidableEq, Repr

/-- `Service.readWSMessage`, translated check for check: read error
passthrough, non-text rejection, proto-message assertion, then decode
(skipped for an empty payload).  On success the payload (the decoded
message) is returned. -/
def readWSMessage (ptrIsProto : Bool) (r : ReadResult) :
    Except GoError (List Nat) :=
  match r with
  | .readErr e => .error e
  | .frame mt payload dec =>
    if mt ≠ textMessage then .error (.plain "only text messages are supported")
    else if ¬ ptrIsProto then
      .error (.plain "message type is not a proto message")
    else if 0 < payload.length then
      match dec with
      | .error e => .error (.plain e)
      | .ok _ => .ok payload
    else .ok payload

/-- Oracle for one Reader-pump iteration: the two cancellation
observations (`ctx.Done()` at the loop top and again before the queue
send) and the read result of this iteration. -/
structure ReaderStep where
  cancelledAtTop : Bool
  read : ReadResult
  cancelledBeforeSend : Bool
deriving DecidableEq, Repr

/-- How a Reader-pump execution ended.  `running` means the supplied
oracle was exhausted with the loop still going (the pump has not
exited). -/
inductive ReaderExit where
  | cancelled
  | cleanClose
  | errored (e : GoError)
  | running
deriving DecidableEq, Repr

/-- Result of a Reader-pump execution: how it exited, the messages it
pushed onto the inbound queue in order, and whether the deferred
`inChan.Close()` ran (it runs on every return). -/
structure ReaderResult where
  exit : ReaderExit
  pushed : List (List Nat)
  queueClosed : Bool
deriving DecidableEq, Repr

/-- The goroutine body of `Service.startMessageReader`, translated
statement for statement as a recursion over the per-iteration oracle:
check cancellation, read one message, exit cleanly on a normal-closure
error, surface any other error on the `read` channel, otherwise push
the message unless cancellation happened in the interim.  The deferred
`close(read)`/`inChan.Close()` run on every exit. -/
def readerLoop (ptrIsProto : Bool) : List ReaderStep → ReaderResult
  | [] => ⟨.running, [], false⟩
  | step :: rest =>
    if step.cancelledAtTop then ⟨.cancelled, [], true⟩
    else
      match readWSMessage ptrIsProto step.read with
      | .error e =>
        if isCloseError e closeNormalClosure then ⟨.cleanClose, [], true⟩
        else ⟨.errored e, [], true⟩
      | .ok payload =>
        if step.cancelledBeforeSend then ⟨.cancelled, [], true⟩
        else
          let r := readerLoop ptrIsProto rest
          ⟨r.exit, payload :: r.pushed, r.queueClosed⟩

/-- `Service.writeWSMessage` over the value model: kind check, encode
via `s.marshal` (errors are wrapped by `apperror.Wrap`, which preserves
the message text), then one transport write whose outcome the oracle
supplies.  Returns the write events performed and the error returned,
mirroring that the frame write is attempted exactly when encoding
succeeded. -/
def writeWSMessageRun (v : RespValue) (transportErr : Option GoError) :
    List Event × Option GoError :=
  if ¬ v.kindPtrOrStruct then
    ([], some (.plain "unsupported type for websocket message"))
  else
    match marshalValue (some v) with
    | .error m => ([], some (.plain m))
    | .ok doc => ([.writeFrame doc], transportErr)

/-- Which of the dispatcher's racing receives in
`handleBidirectionalStream` delivered first:
the implementation's `done` value, an error surfaced by the Reader
pump, or the Reader pump's clean exit (its channel close makes the
receive yield a nil error). -/
inductive BidiRace where
  | implDone (e : Option GoError)
  | readerError (e : GoError)
  | readerClosed
deriving DecidableEq, Repr

/-- The `final` error the `select` leaves behind. -/
def bidiFinal : BidiRace → Option GoError
  | .implDone e => e
  | .readerError e => some e
  | .readerClosed => none

/-- The trace event of the winning `select` case. -/
def raceEvent : BidiRace → Event
  | .implDone _ => .recvDone
  | .readerError _ => .recvRead
  | .readerClosed => .recvRead

/-- Oracle for one `handleBidirectionalStream` execution.
`readerExitedBeforeClose` records whether the Reader pump's goroutine
had already returned by the time the dispatcher reached `closeWS`; the
dispatcher performs no synchronization that could force it, so both
values are reachable whenever the implementation side wins the race. -/
structure BidiEnv where
  race : BidiRace
  readerExitedBeforeClose : Bool

/-- An execution oracle is well formed when it is consistent: if the
race was won through the Reader pump's channel (an error or the channel
close), that pump had necessarily already exited when the dispatcher
proceeded. -/
def BidiEnv.WellFormed (env : BidiEnv) : Prop :=
  (env.race = .readerClosed ∨ ∃ e, env.race = .readerError e) →
    env.readerExitedBeforeClose = true

/-- Spec-side selector (this is *not* part of the translation; the
handlers below keep the source's own branch structure): the close code
a session ends with, as a function of the final error.  A nil error or
a normal-closure error selects the normal close, anything else the
internal-error close. -/
def sessionCloseCode (f : Option GoError) : Nat :=
  match f with
  | some e => if isCloseError e closeNormalClosure then closeNormalClosure
              else closeInternalServerErr
  | none => closeNormalClosure

/-- Spec-side selector: the close reason paired with
`sessionCloseCode` (the final error's text on the internal-error
close, empty otherwise). -/
def sessionCloseReason (f : Option GoError) : String :=
  match f with
  | some e => if isCloseError e closeNormalClosure then "" else e.text
  | none => ""

/-- A final error that must not be treated as a failure: nil, or a
normal-closure close error. -/
def normalFinal (f : Option GoError) : Prop :=
  f = none ∨ ∃ e, f = some e ∧ isCloseError e closeNormalClosure = true

/-- `Service.handleBidirectionalStream` from its `select` on, as the
ordered list of dispatcher events: the race, the `<-write` wait for the
Writer pump, then — mirroring
`final != nil && !websocket.IsCloseError(final, CloseNormalClosure)` —
`closeWS` with the internal-error code and the error text, or the
normal close. -/
def handleBidirectionalStreamRun (env : BidiEnv) : List Event :=
  raceEvent env.race :: Event.waitWriter ::
    (match bidiFinal env.race with
     | some e =>
       if ¬ isCloseError e closeNormalClosure then
         closeWS closeInternalServerErr e.text
       else closeWS closeNormalClosure ""
     | none => closeWS closeNormalClosure "")

/-- Which of `handleClientStream`'s racing receives delivered first.
The implementation goroutine publishes `(nil, err)` when its error is
non-nil and `(res, nil)` otherwise, so `implDone` carries the pair as
published. -/
inductive CSRace where
  | implDone (resp : Option RespValue) (e : Option GoError)
  | readerError (e : GoError)
  | readerClosed
deriving DecidableEq, Repr

/-- Oracle for one `handleClientStream` execution: the race outcome and
the transport-write outcome of the single response frame (consulted
only if that write is reached). -/
structure CSEnv where
  race : CSRace
  transportWrite : Option GoError

/-- The `final` struct the `select` leaves behind (response, error).
On the `implDone` case with a non-nil error the goroutine published a
nil response; a receive from the closed `read` channel leaves both
fields zero. -/
def csFinal : CSRace → Option RespValue × Option GoError
  | .implDone resp none => (resp, none)
  | .implDone _ (some e) => (none, some e)
  | .readerError e => (none, some e)
  | .readerClosed => (none, none)

/-- The trace event of the winning `select` case in
`handleClientStream`. -/
def csRaceEvent : CSRace → Event
  | .implDone _ _ => .recvDone
  | .readerError _ => .recvRead
  | .readerClosed => .recvRead

/-- `Service.handleClientStream` from its `select` on: a non-normal
final error closes with the internal-error code; otherwise a non-nil
response is written as exactly one frame via `writeWSMessage` (closing
with the internal-error code if that fails), and the session closes
normally. -/
def handleClientStreamRun (env : CSEnv) : List Event :=
  let f := csFinal env.race
  csRaceEvent env.race ::
    (match f.2 with
     | some e =>
       if ¬ isCloseError e closeNormalClosure then closeWS closeInternalServerErr e.text
       else
         match f.1 with
         | none => closeWS closeNormalClosure ""
         | some v =>
           let w := writeWSMessageRun v env.transportWrite
           match w.2 with
           | some werr => w.1 ++ closeWS closeInternalServerErr werr.text
           | none => w.1 ++ closeWS closeNormalClosure ""
     | none =>
       match f.1 with
       | none => closeWS closeNormalClosure ""
       | some v =>
         let w := writeWSMessageRun v env.transportWrite
         match w.2 with
         | some werr => w.1 ++ closeWS closeInternalServerErr werr.text
         | none => w.1 ++ closeWS closeNormalClosure "")

/-!  ### Small derived notions used by the statements below -/

/-- The parameter count the decision table requires for a method's
schema flags (3 for the server-streaming conventions, 2 otherwise). -/
def requiredNumIn (md : MethodDesc) : Nat :=
  if md.streamingServer then 3 else 2

/-- The return count the decision table requires for a method's schema
flags (1 for the server-streaming conventions, 2 otherwise). -/
def requiredNumOut (md : MethodDesc) : Nat :=
  if md.streamingServer then 1 else 2

/-- The resolve/construct/decode stages of `Handle` all passed: the
lookup and the message construction succeeded, and either no body was
announced or it read back at the announced length and decoded. -/
def stagesOK (env : HandleEnv) : Prop :=
  env.findRes = .ok () ∧ env.messageRes = .ok () ∧
    (env.contentLength ≤ 0 ∨
      ((env.bodyBytes.length : Int) = env.contentLength ∧
        env.unmarshalRes = .ok ()))

/-- Whether an HTTP event is a write to the outbound transport
(`http.Error` or the success-path response write). -/
def HTTPEvent.isWrite : HTTPEvent → Bool
  | .writeError _ _ => true
  | .writeResponse _ _ => true
  | .readBody => false

/-- Whether a session event is a response-frame write. -/
def Event.isWriteFrame : Event → Bool
  | .writeFrame _ => true
  | _ => false

/-- Number of transport writes in an HTTP event list. -/
def countWrites (l : List HTTPEvent) : Nat :=
  (l.filter HTTPEvent.isWrite).length

/-- Whether a classification result is the Invalid outcome (the Go
function returns `StreamingTypeInvalid` exactly on its error
returns). -/
def classificationInvalid (r : Except String StreamingType) : Bool :=
  match r with
  | .error _ => true
  | .ok _ => false

/-- Number of response frames written in a session event list. -/
def countWriteFrames (l : List Event) : Nat :=
  (l.filter Event.isWriteFrame).length

/-!  ## Theorems  -/

/-- C2: in the Bidirectional handler every session first completes the
race between the implementation's return and the Reader pump's channel
(an error surfaced there, or its closure on the pump's clean exit —
the normal-closure case, which carries no error), then waits for the
Writer pump to exit, and only then sends the close frame and closes
the connection; the close code is the normal closure exactly on a nil
or normal-closure final error, so a normal-closure signal from the
peer is never treated as an error. -/
theorem bidi_dispatcher_race_then_writer_then_close :
    (∀ env : BidiEnv,
      handleBidirectionalStreamRun env =
        [raceEvent env.race, Event.waitWriter,
         Event.closeFrame (sessionCloseCode (bidiFinal env.race))
           (sessionCloseReason (bidiFinal env.race)),
         Event.connClose]) ∧
    (∀ f, normalFinal f →
      sessionCloseCode f = closeNormalClosure ∧ sessionCloseReason f = "") := by
  constructor
  · intro env
    cases henv : bidiFinal env.race with
    | none =>
      simp [handleBidirectionalStreamRun, henv, sessionCloseCode,
        sessionCloseReason, closeWS]
    | some e =>
      by_cases hc : isCloseError e closeNormalClosure <;>
        simp [handleBidirectionalStreamRun, henv, sessionCloseCode,
          sessionCloseReason, closeWS, hc]
  · rintro f (rfl | ⟨e, rfl, hc⟩)
    · exact ⟨rfl, rfl⟩
    · simp [sessionCloseCode, sessionCloseReason, hc]

/-- C2 witness: a session whose Reader pump exits on the peer's
normal-closure signal races, waits for the Writer pump, and closes
with code 1000. -/
theorem bidi_dispatcher_race_then_writer_then_close_witness :
    handleBidirectionalStreamRun ⟨BidiRace.readerClosed, true⟩ =
      [Event.recvRead, Event.waitWriter,
       Event.closeFrame closeNormalClosure "", Event.connClose] := by
  have h := bidi_dispatcher_race_then_writer_then_close
  have h2 := h.2 (bidiFinal BidiRace.readerClosed) (Or.inl rfl)
  rw [h.1 ⟨BidiRace.readerClosed, true⟩, h2.1, h2.2]
  rfl

/-- C4 counterexample: a well-formed Bidirectional execution in which
the implementation wins the race while the Reader pump has not yet
exited (`readerExitedBeforeClose = false` — nothing in the dispatcher
forbids this: it never receives from the reader channel on this path)
still closes the underlying connection, refuting "closed only after
both pumps have stopped". -/
theorem bidi_close_before_reader_exit_counterexample :
    BidiEnv.WellFormed ⟨BidiRace.implDone none, false⟩ ∧
    (⟨BidiRace.implDone none, false⟩ : BidiEnv).readerExitedBeforeClose = false ∧
    (handleBidirectionalStreamRun ⟨BidiRace.implDone none, false⟩).count
      Event.connClose = 1 ∧
    Event.recvRead ∉ handleBidirectionalStreamRun ⟨BidiRace.implDone none, false⟩ := by
  refine ⟨?_, rfl, by decide, by decide⟩
  rintro (h | ⟨e, h⟩) <;> simp at h

/-- C4 (amended): in every Bidirectional session the underlying
connection is closed exactly once, and only after the Writer pump has
stopped (the dispatcher's `<-write` precedes the close); the Reader
pump, however, may still be running at that point. -/
theorem bidi_connection_closed_once_after_writer :
    ∀ env : BidiEnv,
      ∃ pre, handleBidirectionalStreamRun env = pre ++ [Event.connClose] ∧
        Event.waitWriter ∈ pre ∧ pre.count Event.connClose = 0 := by
  intro env
  rcases env with ⟨race, rb⟩
  have hsplit : ∀ (re : Event), re = Event.recvDone ∨ re = Event.recvRead →
      (∃ pre,
        (re :: Event.waitWriter ::
          closeWS closeNormalClosure "" : List Event) = pre ++ [Event.connClose] ∧
        Event.waitWriter ∈ pre ∧ pre.count Event.connClose = 0) ∧
      ∀ t, ∃ pre,
        (re :: Event.waitWriter ::
          closeWS closeInternalServerErr t : List Event) = pre ++ [Event.connClose] ∧
        Event.waitWriter ∈ pre ∧ pre.count Event.connClose = 0 := by
    rintro re (rfl | rfl)
    · constructor
      · exact ⟨[Event.recvDone, Event.waitWriter,
          Event.closeFrame closeNormalClosure ""], rfl, by simp, by simp⟩
      · intro t
        exact ⟨[Event.recvDone, Event.waitWriter,
          Event.closeFrame closeInternalServerErr t], rfl, by simp,
          by simp [List.count_cons]⟩
    · constructor
      · exact ⟨[Event.recvRead, Event.waitWriter,
          Event.closeFrame closeNormalClosure ""], rfl, by simp, by simp⟩
      · intro t
        exact ⟨[Event.recvRead, Event.waitWriter,
          Event.closeFrame closeInternalServerErr t], rfl, by simp,
          by simp [List.count_cons]⟩
  cases race with
  | implDone e =>
    cases e with
    | none => exact (hsplit Event.recvDone (Or.inl rfl)).1
    | some e =>
      by_cases hc : isCloseError e closeNormalClosure
      · have := (hsplit Event.recvDone (Or.inl rfl)).1
        simpa [handleBidirectionalStreamRun, bidiFinal, raceEvent, hc] using this
      · have := (hsplit Event.recvDone (Or.inl rfl)).2 e.text
        simpa [handleBidirectionalStreamRun, bidiFinal, raceEvent, hc] using this
  | readerError e =>
    by_cases hc : isCloseError e closeNormalClosure
    · have := (hsplit Event.recvRead (Or.inr rfl)).1
      simpa [handleBidirectionalStreamRun, bidiFinal, raceEvent, hc] using this
    · have := (hsplit Event.recvRead (Or.inr rfl)).2 e.text
      simpa [handleBidirectionalStreamRun, bidiFinal, raceEvent, hc] using this
  | readerClosed => exact (hsplit Event.recvRead (Or.inr rfl)).1

/-- C5 counterexample: a ClientStream session whose implementation
completes with a nil error and a non-nil response (an `int`, which is
neither pointer nor struct) writes no response frame at all and closes
with the internal-error code 1011, refuting "exactly one encoded
response frame is written ... before the session is closed with the
normal-closure code". -/
theorem client_stream_response_write_counterexample :
    handleClientStreamRun
      ⟨CSRace.implDone (some (RespValue.other "int")) none, none⟩ =
      [Event.recvDone,
       Event.closeFrame closeInternalServerErr
         "unsupported type for websocket message",
       Event.connClose] ∧
    countWriteFrames (handleClientStreamRun
      ⟨CSRace.implDone (some (RespValue.other "int")) none, none⟩) = 0 :=
  ⟨rfl, rfl⟩

/-- C5 (amended): in the ClientStream handler, when the implementation
completes with a nil error and a non-nil response and no Reader-pump
error won the race, then: if the response is a pointer/struct that
encodes successfully and the transport write succeeds, exactly one
encoded response frame is written, before the session closes with the
normal-closure code; if the kind check or the encoding fails, no frame
is written and the session closes with 1011 carrying the error text;
if the transport write fails, the one attempted frame is followed by a
1011 close. -/
theorem client_stream_single_response_frame :
    (∀ (env : CSEnv) (v : RespValue) (doc : EncodedDoc),
      env.race = .implDone (some v) none →
      v.kindPtrOrStruct = true → marshalValue (some v) = .ok doc →
      env.transportWrite = none →
      handleClientStreamRun env =
        [Event.recvDone, Event.writeFrame doc,
         Event.closeFrame closeNormalClosure "", Event.connClose]) ∧
    (∀ (env : CSEnv) (v : RespValue),
      env.race = .implDone (some v) none →
      v.kindPtrOrStruct = false →
      handleClientStreamRun env =
        [Event.recvDone,
         Event.closeFrame closeInternalServerErr
           "unsupported type for websocket message",
         Event.connClose]) ∧
    (∀ (env : CSEnv) (v : RespValue) (m : String),
      env.race = .implDone (some v) none →
      v.kindPtrOrStruct = true → marshalValue (some v) = .error m →
      handleClientStreamRun env =
        [Event.recvDone, Event.closeFrame closeInternalServerErr m,
         Event.connClose]) ∧
    (∀ (env : CSEnv) (v : RespValue) (doc : EncodedDoc) (e : GoError),
      env.race = .implDone (some v) none →
      v.kindPtrOrStruct = true → marshalValue (some v) = .ok doc →
      env.transportWrite = some e →
      handleClientStreamRun env =
        [Event.recvDone, Event.writeFrame doc,
         Event.closeFrame closeInternalServerErr e.text, Event.connClose]) := by
  refine ⟨?_, ?_, ?_, ?_⟩
  · rintro ⟨race, tw⟩ v doc hrace hkind hmar htw
    cases hrace
    simp only at htw
    subst htw
    simp [handleClientStreamRun, csFinal, csRaceEvent, writeWSMessageRun,
      hkind, hmar, closeWS]
  · rintro ⟨race, tw⟩ v hrace hkind
    cases hrace
    simp [handleClientStreamRun, csFinal, csRaceEvent, writeWSMessageRun,
      hkind, closeWS, GoError.text]
  · rintro ⟨race, tw⟩ v m hrace hkind hmar
    cases hrace
    simp [handleClientStreamRun, csFinal, csRaceEvent, writeWSMessageRun,
      hkind, hmar, closeWS, GoError.text]
  · rintro ⟨race, tw⟩ v doc e hrace hkind hmar htw
    cases hrace
    simp only at htw
    subst htw
    simp [handleClientStreamRun, csFinal, csRaceEvent, writeWSMessageRun,
      hkind, hmar, closeWS]

/-- C5 witness: an implementation returning an encodable message with a
nil error yields exactly one frame and a normal close. -/
theorem client_stream_single_response_frame_witness :
    handleClientStreamRun
      ⟨CSRace.implDone (some (RespValue.protoMsg ⟨⟨[]⟩, []⟩)) none, none⟩ =
      [Event.recvDone, Event.writeFrame [],
       Event.closeFrame closeNormalClosure "", Event.connClose] :=
  client_stream_single_response_frame.1 _ _ ([] : EncodedDoc) rfl rfl rfl rfl

/-- C1 counterexample: a bidirectional method whose inbound channel
parameter is receive-only (`<-chan *Input`) deviates from the required
shape `chan *Input`, yet `validateMethodSignature` classifies it as
Bidirectional instead of Invalid — channel direction is not checked in
the bidirectional case, refuting "any deviation ... wrong queue
(channel) direction ... yields Invalid". -/
theorem signature_classification_direction_counterexample :
    validateMethodSignature
      ⟨[.context, .ch .recv (.ptr (.message "pb.In" "In")),
        .ch .both (.message "pb.Out" "Out")], [.goError]⟩
      ⟨.message "pb.In" "In", .message "pb.Out" "Out", true, true⟩ =
      .ok .bidirectional ∧
    GoType.ch .recv (.ptr (.message "pb.In" "In")) ≠
      GoType.ch .both (.ptr (.message "pb.In" "In")) := by
  exact ⟨by decide, by decide⟩

/-- C1 (amended): `validateMethodSignature` classifies purely from the
schema flags and the reflected signature per the decision table (each
canonical shape yields its convention); a wrong parameter or return
count always yields Invalid with a descriptive reason, as does a
message-type mismatch in a checked position; but channel direction is
only checked for the server-streaming output channel (which must be
sendable), and the output position accepts `*Output` as well as
`Output`.  Whenever classification yields Invalid, `HandleWebsocket`
closes the session with the internal-error close code 1011 and never
reaches a streaming handler, so the user method is never invoked. -/
theorem signature_classification_decision_table :
    (∀ qi bi qo bo : String,
      validateMethodSignature
        ⟨[.context, .ch .both (.ptr (.message qi bi)),
          .ch .both (.message qo bo)], [.goError]⟩
        ⟨.message qi bi, .message qo bo, true, true⟩ = .ok .bidirectional) ∧
    (∀ qi bi qo bo : String,
      validateMethodSignature
        ⟨[.context, .ptr (.message qi bi), .ch .both (.message qo bo)],
         [.goError]⟩
        ⟨.message qi bi, .message qo bo, true, false⟩ = .ok .serverStream) ∧
    (∀ qi bi qo bo : String,
      validateMethodSignature
        ⟨[.context, .ch .both (.ptr (.message qi bi))],
         [.message qo bo, .goError]⟩
        ⟨.message qi bi, .message qo bo, false, true⟩ = .ok .clientStream) ∧
    (∀ qi bi qo bo : String,
      validateMethodSignature
        ⟨[.context, .ptr (.message qi bi)], [.message qo bo, .goError]⟩
        ⟨.message qi bi, .message qo bo, false, false⟩ = .ok .unary) ∧
    (∀ (mt : MethodSig) (md : MethodDesc),
      mt.numIn ≠ requiredNumIn md ∨ mt.numOut ≠ requiredNumOut md →
      classificationInvalid (validateMethodSignature mt md) = true) ∧
    (∀ qi bi qo bo : String,
      validateMethodSignature
        ⟨[.context, .ptr (.message qi bi), .ch .recv (.message qo bo)],
         [.goError]⟩
        ⟨.message qi bi, .message qo bo, true, false⟩ =
        .error "third parameter must be send chan OutputMsg") ∧
    (∀ a b c d qo bo : String, a ≠ c → b ≠ d →
      validateMethodSignature
        ⟨[.context, .ptr (.message a b)], [.message qo bo, .goError]⟩
        ⟨.message c d, .message qo bo, false, false⟩ =
        .error ("input type mismatch: expected *" ++
          GoType.typeString (.message c d) ++ ", got " ++
          GoType.typeString (.ptr (.message a b)))) ∧
    (∀ qi bi qo bo : String,
      validateMethodSignature
        ⟨[.context, .ptr (.message qi bi)],
         [.ptr (.message qo bo), .goError]⟩
        ⟨.message qi bi, .message qo bo, false, false⟩ = .ok .unary) ∧
    (∀ (mt : MethodSig) (md : MethodDesc) (r : String),
      validateMethodSignature mt md = .error r →
      handleWebsocket (.ok md) true mt =
        .closed closeInternalServerErr ("invalid method signature: " ++ r)) := by
  refine ⟨?_, ?_, ?_, ?_, ?_, ?_, ?_, ?_, ?_⟩
  · intro qi bi qo bo
    simp [validateMethodSignature, MethodSig.numIn, MethodSig.numOut,
      MethodSig.inAt, MethodSig.outAt, GoType.implementsContext,
      GoType.implementsError, GoType.isChan, GoType.isPtr, GoType.elem,
      typesMatch]
  · intro qi bi qo bo
    simp [validateMethodSignature, MethodSig.numIn, MethodSig.numOut,
      MethodSig.inAt, MethodSig.outAt, GoType.implementsContext,
      GoType.implementsError, GoType.isChan, GoType.isPtr, GoType.elem,
      GoType.chanDirHasSend, typesMatch]
  · intro qi bi qo bo
    simp [validateMethodSignature, MethodSig.numIn, MethodSig.numOut,
      MethodSig.inAt, MethodSig.outAt, GoType.implementsContext,
      GoType.implementsError, GoType.isChan, GoType.isPtr, GoType.elem,
      typesMatch]
  · intro qi bi qo bo
    simp [validateMethodSignature, MethodSig.numIn, MethodSig.numOut,
      MethodSig.inAt, MethodSig.outAt, GoType.implementsContext,
      GoType.implementsError, GoType.isChan, GoType.isPtr, GoType.elem,
      typesMatch]
  · rintro mt ⟨it, ot, ss, sc⟩ h
    by_cases hb1 : mt.numIn < 1 ∨ ¬ (mt.inAt 0).implementsContext
    · have hv : validateMethodSignature mt ⟨it, ot, ss, sc⟩ =
          .error "first parameter must be context.Context" := by
        unfold validateMethodSignature; rw [if_pos hb1]
      simp [hv, classificationInvalid]
    · by_cases hb2 : mt.numOut < 1 ∨
        ¬ (mt.outAt (mt.numOut - 1)).implementsError
      · have hv : validateMethodSignature mt ⟨it, ot, ss, sc⟩ =
            .error "last return value must be error" := by
          unfold validateMethodSignature; rw [if_neg hb1, if_pos hb2]
        simp [hv, classificationInvalid]
      · cases ss <;> cases sc
        · have hc : mt.numIn ≠ 2 ∨ mt.numOut ≠ 2 := by
            simpa [requiredNumIn, requiredNumOut] using h
          have hv : validateMethodSignature mt ⟨it, ot, false, false⟩ =
              .error "unary method must have signature: func(context.Context, *InputMsg) (OutputMsg, error)" := by
            simp [validateMethodSignature, hc]
            rw [if_neg (by simpa [Nat.lt_one_iff] using hb1),
              if_neg (by simpa [Nat.lt_one_iff] using hb2)]
          simp [hv, classificationInvalid]
        · have hc : mt.numIn ≠ 2 ∨ mt.numOut ≠ 2 := by
            simpa [requiredNumIn, requiredNumOut] using h
          have hv : validateMethodSignature mt ⟨it, ot, false, true⟩ =
              .error "client streaming method must have signature: func(context.Context, chan *InputMsg) (OutputMsg, error)" := by
            simp [validateMethodSignature, hc]
            rw [if_neg (by simpa [Nat.lt_one_iff] using hb1),
              if_neg (by simpa [Nat.lt_one_iff] using hb2)]
          simp [hv, classificationInvalid]
        · have hc : mt.numIn ≠ 3 ∨ mt.numOut ≠ 1 := by
            simpa [requiredNumIn, requiredNumOut] using h
          have hv : validateMethodSignature mt ⟨it, ot, true, false⟩ =
              .error "server streaming method must have signature: func(context.Context, *InputMsg, chan OutputMsg) error" := by
            simp [validateMethodSignature, hc]
            rw [if_neg (by simpa [Nat.lt_one_iff] using hb1),
              if_neg (by simpa [Nat.lt_one_iff] using hb2)]
          simp [hv, classificationInvalid]
        · have hc : mt.numIn ≠ 3 ∨ mt.numOut ≠ 1 := by
            simpa [requiredNumIn, requiredNumOut] using h
          have hv : validateMethodSignature mt ⟨it, ot, true, true⟩ =
              .error "bidirectional streaming method must have signature: func(context.Context, chan *InputMsg, chan OutputMsg) error" := by
            simp [validateMethodSignature, hc]
            rw [if_neg (by simpa [Nat.lt_one_iff] using hb1),
              if_neg (by simpa [Nat.lt_one_iff] using hb2)]
          simp [hv, classificationInvalid]
  · intro qi bi qo bo
    simp [validateMethodSignature, MethodSig.numIn, MethodSig.numOut,
      MethodSig.inAt, MethodSig.outAt, GoType.implementsContext,
      GoType.implementsError, GoType.isChan, GoType.isPtr, GoType.elem,
      GoType.chanDirHasSend, typesMatch]
  · intro a b c d qo bo ha hb
    simp [validateMethodSignature, MethodSig.numIn, MethodSig.numOut,
      MethodSig.inAt, MethodSig.outAt, GoType.implementsContext,
      GoType.implementsError, GoType.isChan, GoType.isPtr, GoType.elem,
      typesMatch, GoType.typeString, GoType.typeName, ha, hb]
  · intro qi bi qo bo
    simp [validateMethodSignature, MethodSig.numIn, MethodSig.numOut,
      MethodSig.inAt, MethodSig.outAt, GoType.implementsContext,
      GoType.implementsError, GoType.isChan, GoType.isPtr, GoType.elem,
      typesMatch]
  · intro mt md r h
    simp [handleWebsocket, h]

/-- C1 witness: a canonical unary shape classifies as Unary; a
one-parameter signature (wrong count) is Invalid; an input-type
mismatch is Invalid with its descriptive reason; and a server-streaming
method with a receive-only output channel makes `HandleWebsocket`
close the session with code 1011 before any handler runs. -/
theorem signature_classification_decision_table_witness :
    validateMethodSignature
      ⟨[.context, .ptr (.message "pb.In" "In")],
       [.message "pb.Out" "Out", .goError]⟩
      ⟨.message "pb.In" "In", .message "pb.Out" "Out", false, false⟩ =
      .ok .unary ∧
    classificationInvalid (validateMethodSignature ⟨[.context], [.goError]⟩
      ⟨.message "pb.In" "In", .message "pb.Out" "Out", false, false⟩) =
      true ∧
    validateMethodSignature
      ⟨[.context, .ptr (.message "pb.A" "A")],
       [.message "pb.Out" "Out", .goError]⟩
      ⟨.message "pb.B" "B", .message "pb.Out" "Out", false, false⟩ =
      .error ("input type mismatch: expected *" ++
        GoType.typeString (.message "pb.B" "B") ++ ", got " ++
        GoType.typeString (.ptr (.message "pb.A" "A"))) ∧
    handleWebsocket
      (.ok ⟨.message "pb.In" "In", .message "pb.Out" "Out", true, false⟩)
      true
      ⟨[.context, .ptr (.message "pb.In" "In"),
        .ch .recv (.message "pb.Out" "Out")], [.goError]⟩ =
      .closed closeInternalServerErr
        ("invalid method signature: " ++
          "third parameter must be send chan OutputMsg") := by
  have h := signature_classification_decision_table
  refine ⟨h.2.2.2.1 "pb.In" "In" "pb.Out" "Out",
    h.2.2.2.2.1 ⟨[.context], [.goError]⟩
      ⟨.message "pb.In" "In", .message "pb.Out" "Out", false, false⟩
      (Or.inl (by decide)),
    h.2.2.2.2.2.2.1 "pb.A" "A" "pb.B" "B" "pb.Out" "Out"
      (by decide) (by decide), ?_⟩
  exact h.2.2.2.2.2.2.2.2 _ _ _
    (h.2.2.2.2.2.1 "pb.In" "In" "pb.Out" "Out")

/-- Helper: when the resolve/construct/decode stages pass, `Handle`
reduces to its post-decode tail (with the read event and decoded
message state on the body path, and no read and the fresh message
otherwise). -/
theorem handle_stagesOK_eq (env : HandleEnv) (hst : stagesOK env) :
    ∃ pre ms, handle env = handleAfterDecode env pre ms := by
  rcases hst with ⟨hf, hm, hd⟩
  by_cases hcl : 0 < env.contentLength
  · rcases hd with hle | ⟨hlen, hun⟩
    · exact absurd hcl (not_lt.2 hle)
    · exact ⟨[.readBody], .decodedFrom env.bodyBytes,
        by simp [handle, hf, hm, hcl, hlen, hun]⟩
  · exact ⟨[], .empty, by simp [handle, hf, hm, hcl]⟩

/-- C3 counterexample: a request that resolves, constructs its input,
carries no body, and whose implementation returns a nil error — but
whose response value is not a schema message — is answered with a 500,
not the 200 the claim's "otherwise" branch asserts. -/
theorem handle_encode_failure_counterexample :
    (handle
      { findRes := .ok (), messageRes := .ok (), contentLength := 0,
        bodyBytes := [], unmarshalRes := .ok (),
        callEnv :=
          { methodValid := true,
            sig := ⟨[.context, .ptr (.message "pb.In" "In")],
                    [.message "pb.Out" "Out", .goError]⟩,
            reqValid := true, reqAssignable := true,
            convMarshal := .ok [], convIsProtoMessage := true,
            convUnmarshal := .ok (),
            implResp := some (.other "int"),
            implErr := none } }).response =
      .errorResp 500 "response is not a proto message" ∧
    (handle
      { findRes := .ok (), messageRes := .ok (), contentLength := 0,
        bodyBytes := [], unmarshalRes := .ok (),
        callEnv :=
          { methodValid := true,
            sig := ⟨[.context, .ptr (.message "pb.In" "In")],
                    [.message "pb.Out" "Out", .goError]⟩,
            reqValid := true, reqAssignable := true,
            convMarshal := .ok [], convIsProtoMessage := true,
            convUnmarshal := .ok (),
            implResp := some (.other "int"),
            implErr := none } }).response.status = 500 := by
  exact ⟨by decide, by decide⟩

/-- C3 (amended): `Handle` maps outcomes to statuses exactly as:
failed (service, method) resolution → 404; failed input-message
construction → 500; a body length differing from the announced
Content-Length, or a failed schema-aware decode → 400; a non-nil
implementation error → 500 with the error text; a response value the
schema-aware encoder rejects → 500 with the error text; otherwise the
encoded response is written with status 200 and the application/json
content type. -/
theorem handle_status_mapping :
    (∀ (env : HandleEnv) (e : String), env.findRes = .error e →
      (handle env).response = .errorResp 404 e) ∧
    (∀ (env : HandleEnv) (e : String), env.findRes = .ok () →
      env.messageRes = .error e →
      (handle env).response = .errorResp 500 e) ∧
    (∀ env : HandleEnv, env.findRes = .ok () → env.messageRes = .ok () →
      0 < env.contentLength →
      (env.bodyBytes.length : Int) ≠ env.contentLength →
      (handle env).response =
        .errorResp 400 "body length does not match Content-Length") ∧
    (∀ (env : HandleEnv) (e : String), env.findRes = .ok () →
      env.messageRes = .ok () → 0 < env.contentLength →
      (env.bodyBytes.length : Int) = env.contentLength →
      env.unmarshalRes = .error e →
      (handle env).response = .errorResp 400 e) ∧
    (∀ (env : HandleEnv) (r : Option RespValue) (e : GoError),
      stagesOK env → call env.callEnv = .invoked r (some e) →
      (handle env).response = .errorResp 500 e.text) ∧
    (∀ (env : HandleEnv) (r : Option RespValue) (m : String),
      stagesOK env → call env.callEnv = .invoked r none →
      marshalValue r = .error m →
      (handle env).response = .errorResp 500 m) ∧
    (∀ (env : HandleEnv) (r : Option RespValue) (doc : EncodedDoc),
      stagesOK env → call env.callEnv = .invoked r none →
      marshalValue r = .ok doc →
      (handle env).response = .okResp doc ∧
      (handle env).response.status = 200 ∧
      (handle env).response.contentType = some "application/json") := by
  refine ⟨?_, ?_, ?_, ?_, ?_, ?_, ?_⟩
  · intro env e hf
    simp [handle, hf]
  · intro env e hf hm
    simp [handle, hf, hm]
  · intro env hf hm hcl hlen
    simp [handle, hf, hm, hcl, hlen]
  · intro env e hf hm hcl hlen hun
    simp [handle, hf, hm, hcl, hlen, hun]
  · intro env r e hst hcall
    obtain ⟨pre, ms, heq⟩ := handle_stagesOK_eq env hst
    rw [heq]
    simp [handleAfterDecode, hcall]
  · intro env r m hst hcall hmar
    obtain ⟨pre, ms, heq⟩ := handle_stagesOK_eq env hst
    rw [heq]
    simp [handleAfterDecode, hcall, hmar]
  · intro env r doc hst hcall hmar
    obtain ⟨pre, ms, heq⟩ := handle_stagesOK_eq env hst
    rw [heq]
    simp [handleAfterDecode, hcall, hmar, HTTPResponse.status,
      HTTPResponse.contentType]

/-- C3 witness: a failed lookup is answered 404, and a successful call
whose (empty) response message encodes is answered with the encoded
body. -/
theorem handle_status_mapping_witness :
    (handle
      { findRes := .error "service not found", messageRes := .ok (),
        contentLength := 0, bodyBytes := [], unmarshalRes := .ok (),
        callEnv :=
          { methodValid := true,
            sig := ⟨[.context, .ptr (.message "pb.In" "In")],
                    [.message "pb.Out" "Out", .goError]⟩,
            reqValid := true, reqAssignable := true,
            convMarshal := .ok [], convIsProtoMessage := true,
            convUnmarshal := .ok (), implResp := none,
            implErr := none } }).response =
      .errorResp 404 "service not found" ∧
    (handle
      { findRes := .ok (), messageRes := .ok (), contentLength := 0,
        bodyBytes := [], unmarshalRes := .ok (),
        callEnv :=
          { methodValid := true,
            sig := ⟨[.context, .ptr (.message "pb.In" "In")],
                    [.message "pb.Out" "Out", .goError]⟩,
            reqValid := true, reqAssignable := true,
            convMarshal := .ok [], convIsProtoMessage := true,
            convUnmarshal := .ok (),
            implResp := some (.protoMsg ⟨⟨[]⟩, []⟩),
            implErr := none } }).response =
      .okResp [] := by
  constructor
  · exact handle_status_mapping.1 _ "service not found" rfl
  · exact (handle_status_mapping.2.2.2.2.2.2 _
      (some (.protoMsg ⟨⟨[]⟩, []⟩)) []
      ⟨rfl, rfl, Or.inl (by decide)⟩ (by decide) rfl).1

/-- Helper: the post-decode tail of `Handle` always appends exactly one
write event to the prefix. -/
theorem handleAfterDecode_events (env : HandleEnv) (pre : List HTTPEvent)
    (ms : MsgState) :
    ∃ ev : HTTPEvent, ev.isWrite = true ∧
      (handleAfterDecode env pre ms).events = pre ++ [ev] := by
  unfold handleAfterDecode
  cases hc : call env.callEnv with
  | checkError m => exact ⟨.writeError 500 m, rfl, rfl⟩
  | invoked r err =>
    cases err with
    | some e => exact ⟨.writeError 500 e.text, rfl, rfl⟩
    | none =>
      cases hm : marshalValue r with
      | error m => exact ⟨.writeError 500 m, rfl, by simp [hm]⟩
      | ok out => exact ⟨.writeResponse 200 out, rfl, by simp [hm]⟩

/-- Helper: the post-decode tail of `Handle` always passes the supplied
message state to `s.call`. -/
theorem handleAfterDecode_callInput (env : HandleEnv) (pre : List HTTPEvent)
    (ms : MsgState) :
    (handleAfterDecode env pre ms).callInput = some ms := by
  cases hc : call env.callEnv with
  | checkError m => simp [handleAfterDecode, hc]
  | invoked r err =>
    cases err with
    | some e => simp [handleAfterDecode, hc]
    | none => cases hm : marshalValue r <;> simp [handleAfterDecode, hc, hm]

/-- C7: every `Handle` execution performs exactly one write to the
outbound transport (each error path one `http.Error`, the success path
one response write) and at most one read of the request body. -/
theorem handle_one_write_at_most_one_read :
    ∀ env : HandleEnv,
      countWrites (handle env).events = 1 ∧
      (handle env).events.count HTTPEvent.readBody ≤ 1 := by
  intro env
  rcases hf : env.findRes with e | u
  · simp [handle, hf, countWrites, HTTPEvent.isWrite]
  · rcases hm : env.messageRes with e | u2
    · simp [handle, hf, hm, countWrites, HTTPEvent.isWrite]
    · by_cases hcl : 0 < env.contentLength
      · by_cases hlen : (env.bodyBytes.length : Int) ≠ env.contentLength
        · simp [handle, hf, hm, hcl, hlen, countWrites, HTTPEvent.isWrite,
            List.count_cons]
        · rcases hun : env.unmarshalRes with e | u3
          · simp [handle, hf, hm, hcl, hlen, hun, countWrites,
              HTTPEvent.isWrite, List.count_cons]
          · have heq : handle env =
                handleAfterDecode env [.readBody] (.decodedFrom env.bodyBytes) := by
              simp [handle, hf, hm, hcl, hlen, hun]
            obtain ⟨ev, hev, hevents⟩ :=
              handleAfterDecode_events env [.readBody] (.decodedFrom env.bodyBytes)
            rw [heq, hevents]
            constructor
            · cases ev <;> simp_all [countWrites, HTTPEvent.isWrite]
            · cases ev <;> simp_all [HTTPEvent.isWrite, List.count_cons]
      · have heq : handle env = handleAfterDecode env [] .empty := by
          simp [handle, hf, hm, hcl]
        obtain ⟨ev, hev, hevents⟩ := handleAfterDecode_events env [] .empty
        rw [heq, hevents]
        constructor
        · cases ev <;> simp_all [countWrites, HTTPEvent.isWrite]
        · cases ev <;> simp_all [HTTPEvent.isWrite, List.count_cons]

/-- C8: a located implementation deviating from the unary contract —
wrong arity, non-context first parameter, non-pointer second parameter,
or non-error last return — is rejected by `call`'s dispatch-time checks
(all performed before `m.Call`, so the implementation is never invoked
and nothing can panic there), and `Handle` turns that check error into
a 500 response. -/
theorem call_checks_precede_invocation :
    (∀ cenv : CallEnv,
      cenv.sig.numIn ≠ 2 ∨ cenv.sig.numOut ≠ 2 ∨
        (cenv.sig.inAt 0).implementsContext = false ∨
        (cenv.sig.inAt 1).isPtr = false ∨
        (cenv.sig.outAt 1).implementsError = false →
      ∃ m, call cenv = .checkError m) ∧
    (∀ (env : HandleEnv) (m : String), stagesOK env →
      call env.callEnv = .checkError m →
      (handle env).response = .errorResp 500 m) := by
  constructor
  · intro cenv hdev
    by_cases hv : cenv.methodValid
    · by_cases h1 : cenv.sig.numIn ≠ 2 ∨ cenv.sig.numOut ≠ 2
      · exact ⟨"invalid method signature", by simp [call, hv, h1]⟩
      · push_neg at h1
        by_cases h2 : (cenv.sig.inAt 0).implementsContext
        · by_cases h3 : (cenv.sig.outAt 1).implementsError
          · by_cases h4 : (cenv.sig.inAt 1).isPtr
            · rcases hdev with h | h | h | h | h
              · exact absurd h1.1 h
              · exact absurd h1.2 h
              · rw [h2] at h; cases h
              · rw [h4] at h; cases h
              · rw [h3] at h; cases h
            · exact ⟨"request must be a pointer",
                by simp [call, hv, h1.1, h1.2, h2, h3, h4]⟩
          · exact ⟨"second return value must be error",
              by simp [call, hv, h1.1, h1.2, h2, h3]⟩
        · exact ⟨"first argument must be context.Context",
            by simp [call, hv, h1.1, h1.2, h2]⟩
    · exact ⟨"method not found", by simp [call, hv]⟩
  · intro env m hst hcall
    obtain ⟨pre, ms, heq⟩ := handle_stagesOK_eq env hst
    rw [heq]
    simp [handleAfterDecode, hcall]

/-- C8 witness: a one-parameter, one-return implementation is rejected
by the arity check and `Handle` answers 500 with its message. -/
theorem call_checks_precede_invocation_witness :
    (handle
      { findRes := .ok (), messageRes := .ok (), contentLength := 0,
        bodyBytes := [], unmarshalRes := .ok (),
        callEnv :=
          { methodValid := true,
            sig := ⟨[.context], [.goError]⟩,
            reqValid := true, reqAssignable := true,
            convMarshal := .ok [], convIsProtoMessage := true,
            convUnmarshal := .ok (), implResp := none,
            implErr := none } }).response =
      .errorResp 500 "invalid method signature" :=
  call_checks_precede_invocation.2 _ "invalid method signature"
    ⟨rfl, rfl, Or.inl (by decide)⟩ (by decide)

/-- C10: when the announced ContentLength is zero or negative, `Handle`
performs no body read (whatever bytes the request actually carries),
never answers 400 on this path, and any invocation receives the fresh,
empty Message-Factory instance. -/
theorem handle_no_body_skips_decode :
    ∀ env : HandleEnv, env.contentLength ≤ 0 →
      (handle env).events.count HTTPEvent.readBody = 0 ∧
      (handle env).response.status ≠ 400 ∧
      ∀ ms, (handle env).callInput = some ms → ms = MsgState.empty := by
  intro env hcl
  have hncl : ¬ 0 < env.contentLength := not_lt.2 hcl
  rcases hf : env.findRes with e | u
  · refine ⟨by simp [handle, hf], by simp [handle, hf, HTTPResponse.status], ?_⟩
    intro ms hms
    simp [handle, hf] at hms
  · rcases hm : env.messageRes with e | u2
    · refine ⟨by simp [handle, hf, hm],
        by simp [handle, hf, hm, HTTPResponse.status], ?_⟩
      intro ms hms
      simp [handle, hf, hm] at hms
    · have heq : handle env = handleAfterDecode env [] .empty := by
        simp [handle, hf, hm, hncl]
      rw [heq]
      refine ⟨?_, ?_, ?_⟩
      · obtain ⟨ev, hev, hevents⟩ := handleAfterDecode_events env [] .empty
        rw [hevents]
        cases ev <;> simp_all [HTTPEvent.isWrite]
      · cases hc : call env.callEnv with
        | checkError m => simp [handleAfterDecode, hc, HTTPResponse.status]
        | invoked r err =>
          cases err with
          | some e => simp [handleAfterDecode, hc, HTTPResponse.status]
          | none =>
            cases hmar : marshalValue r with
            | error m =>
              simp [handleAfterDecode, hc, hmar, HTTPResponse.status]
            | ok doc =>
              simp [handleAfterDecode, hc, hmar, HTTPResponse.status]
      · intro ms hms
        rw [handleAfterDecode_callInput] at hms
        exact (Option.some.inj hms).symm

/-- C10 witness: a request with ContentLength 0 (and a non-empty actual
body) triggers no body read. -/
theorem handle_no_body_skips_decode_witness :
    (handle
      { findRes := .ok (), messageRes := .ok (), contentLength := 0,
        bodyBytes := [1, 2, 3], unmarshalRes := .ok (),
        callEnv :=
          { methodValid := true,
            sig := ⟨[.context, .ptr (.message "pb.In" "In")],
                    [.message "pb.Out" "Out", .goError]⟩,
            reqValid := true, reqAssignable := true,
            convMarshal := .ok [], convIsProtoMessage := true,
            convUnmarshal := .ok (),
            implResp := some (.protoMsg ⟨⟨[]⟩, []⟩),
            implErr := none } }).events.count HTTPEvent.readBody = 0 :=
  (handle_no_body_skips_decode _ (by decide)).1

/-- C6: the Reader pump closes the inbound queue on every exit path; it
rejects non-text frames with the protocol error "only text messages are
supported"; a normal-closure signal from the peer makes it exit cleanly
without surfacing an error; any other read or decode error is surfaced
exactly as produced, and a surfaced error is never a normal-closure
error. -/
theorem reader_pump_behavior :
    (∀ (p : Bool) (steps : List ReaderStep),
      (readerLoop p steps).exit ≠ .running →
      (readerLoop p steps).queueClosed = true) ∧
    (∀ (p : Bool) (mtype : Nat) (payload : List Nat)
        (dec : Except String Unit),
      mtype ≠ textMessage →
      readWSMessage p (.frame mtype payload dec) =
        .error (.plain "only text messages are supported")) ∧
    (∀ (p : Bool) (step : ReaderStep) (rest : List ReaderStep) (e : GoError),
      step.cancelledAtTop = false →
      readWSMessage p step.read = .error e →
      isCloseError e closeNormalClosure = true →
      readerLoop p (step :: rest) = ⟨.cleanClose, [], true⟩) ∧
    (∀ (p : Bool) (step : ReaderStep) (rest : List ReaderStep) (e : GoError),
      step.cancelledAtTop = false →
      readWSMessage p step.read = .error e →
      isCloseError e closeNormalClosure = false →
      readerLoop p (step :: rest) = ⟨.errored e, [], true⟩) ∧
    (∀ (p : Bool) (steps : List ReaderStep) (e : GoError),
      (readerLoop p steps).exit = .errored e →
      isCloseError e closeNormalClosure = false) := by
  refine ⟨?_, ?_, ?_, ?_, ?_⟩
  · intro p steps
    induction steps with
    | nil => intro h; simp [readerLoop] at h
    | cons step rest ih =>
      intro h
      by_cases hct : step.cancelledAtTop
      · simp [readerLoop, hct]
      · cases hr : readWSMessage p step.read with
        | error e =>
          by_cases hc : isCloseError e closeNormalClosure <;>
            simp [readerLoop, hct, hr, hc]
        | ok payload =>
          by_cases hcs : step.cancelledBeforeSend
          · simp [readerLoop, hct, hr, hcs]
          · simp only [readerLoop, hct, hr, hcs] at h ⊢
            simp only [Bool.false_eq_true, if_false] at h ⊢
            exact ih h
  · intro p mtype payload dec h
    simp [readWSMessage, h]
  · intro p step rest e hct hr hc
    simp [readerLoop, hct, hr, hc]
  · intro p step rest e hct hr hc
    simp [readerLoop, hct, hr, hc]
  · intro p steps
    induction steps with
    | nil => intro e h; simp [readerLoop] at h
    | cons step rest ih =>
      intro e h
      by_cases hct : step.cancelledAtTop
      · simp [readerLoop, hct] at h
      · cases hr : readWSMessage p step.read with
        | error e2 =>
          by_cases hc : isCloseError e2 closeNormalClosure
          · simp [readerLoop, hct, hr, hc] at h
          · simp [readerLoop, hct, hr, hc] at h
            subst h
            simpa using hc
        | ok payload =>
          by_cases hcs : step.cancelledBeforeSend
          · simp [readerLoop, hct, hr, hcs] at h
          · simp only [readerLoop, hct, hr, hcs] at h
            simp only [Bool.false_eq_true, if_false] at h
            exact ih e h

/-- C6 witness: a pump that reads the peer's normal-closure signal on
its first iteration exits cleanly, surfaces nothing, and closes the
inbound queue. -/
theorem reader_pump_behavior_witness :
    readerLoop true
      [⟨false, .readErr (.closeError closeNormalClosure "bye"), false⟩] =
      ⟨ReaderExit.cleanClose, [], true⟩ :=
  reader_pump_behavior.2.2.1 true
    ⟨false, .readErr (.closeError closeNormalClosure "bye"), false⟩ []
    (.closeError closeNormalClosure "bye") rfl rfl (by decide)

/-- Helper: looking up a declared field in the emitted document returns
that field's effective value (schema field names assumed distinct). -/
theorem lookup_encode_getField (flds : List (String × FieldType))
    (m : Message) (n : String) (t : FieldType)
    (hnd : (flds.map Prod.fst).Nodup) (hmem : (n, t) ∈ flds) :
    (flds.map (fun p => (p.1, getField m p.1 p.2))).lookup n =
      some (getField m n t) := by
  induction flds with
  | nil => cases hmem
  | cons a rest ih =>
    rcases List.mem_cons.mp hmem with heq | hmem2
    · obtain ⟨a1, a2⟩ := a
      injection heq with h1 h2
      subst h1
      subst h2
      simp [List.lookup]
    · rw [List.map_cons] at hnd
      have hnodup := List.nodup_cons.mp hnd
      have hne : a.1 ≠ n := by
        intro hcontra
        apply hnodup.1
        rw [hcontra]
        exact List.mem_map_of_mem Prod.fst hmem2
      have hbne : (n == a.1) = false := beq_eq_false_iff_ne.mpr (Ne.symm hne)
      simp only [List.map_cons, List.lookup, hbne]
      exact ih hnodup.2 hmem2

/-- C9: encoding a message with the dispatcher's encoder (which emits
every schema-declared field, zero-valued when unset) and decoding the
document into a fresh Message-Factory instance of the same schema
succeeds and yields a message agreeing with the original on every
schema-declared field, including zero/default values.  The codec is
modelled from the spec (see the codec section above); `marshalValue`
is the source's `Service.marshal` dispatch. -/
theorem marshal_roundtrip_preserves_fields :
    ∀ (m : Message) (n : String) (t : FieldType),
      (m.schema.fields.map Prod.fst).Nodup → (n, t) ∈ m.schema.fields →
      marshalValue (some (.protoMsg m)) = .ok (encode m) ∧
      decodeDoc m.schema (encode m) = .ok ⟨m.schema, encode m⟩ ∧
      getField ⟨m.schema, encode m⟩ n t = getField m n t := by
  intro m n t hnd hmem
  refine ⟨rfl, ?_, ?_⟩
  · unfold decodeDoc
    rw [if_pos]
    apply List.all_eq_true.mpr
    intro p hp
    obtain ⟨q, hq, rfl⟩ := List.mem_map.mp hp
    simpa [List.contains, List.elem_iff] using
      List.mem_map_of_mem Prod.fst hq
  · have hl : (encode m).lookup n = some (getField m n t) :=
      lookup_encode_getField m.schema.fields m n t hnd hmem
    simp only [getField]
    rw [hl]
    rfl

/-- C9 witness: a one-field message with the field set to 7 round-trips
to the same field value. -/
theorem marshal_roundtrip_preserves_fields_witness :
    decodeDoc ⟨[("n", FieldType.intF)]⟩
        (encode ⟨⟨[("n", FieldType.intF)]⟩, [("n", FieldValue.intV 7)]⟩) =
      .ok ⟨⟨[("n", FieldType.intF)]⟩,
        encode ⟨⟨[("n", FieldType.intF)]⟩, [("n", FieldValue.intV 7)]⟩⟩ ∧
    getField ⟨⟨[("n", FieldType.intF)]⟩,
        encode ⟨⟨[("n", FieldType.intF)]⟩, [("n", FieldValue.intV 7)]⟩⟩
        "n" FieldType.intF =
      getField ⟨⟨[("n", FieldType.intF)]⟩, [("n", FieldValue.intV 7)]⟩
        "n" FieldType.intF := by
  have h := marshal_roundtrip_preserves_fields
    ⟨⟨[("n", FieldType.intF)]⟩, [("n", FieldValue.intV 7)]⟩
    "n" FieldType.intF (by decide) (by decide)
  exact ⟨h.2.1, h.2.2⟩

end JRPC
